import Mathlib

/-!
Verification of the coresident-off-days schedule classification engine.

This file gives a shallow embedding, in Lean 4, of the core logic of the
coresident-off-days service: the block resolver, the off-rotation fetchers
(primary templates table and the secondary Bayview/Weinberg site), the rule
builder that compiles service expression templates into match patterns, and
the two assignment classifiers (the role-aware exhaustive one in
`helpers/output.js` and the simple non-exhaustive one of the earlier
variant).

Modelling conventions:
* JavaScript objects used as ordered string-keyed maps are modelled as
  association lists (`Obj β`), with `objGet` (first occurrence, as JS
  property lookup on objects that never hold duplicate keys) and `objSet`
  (replace the first occurrence in place, otherwise append: JS assignment
  keeps the insertion position of an existing key and appends a new key).
* A possibly-`undefined` JavaScript value is an `Option`; coercions that JS
  performs implicitly (ToString of `undefined`, truthiness) are explicit
  (`jsStringArg`, `jsTruthy`).
* The DynamoDB store is modelled by the table contents: a scan with a
  filter expression is `List.filter` with the same predicate over the rows,
  and a key-condition query by date is a filter on the date attribute.
* Dates are epoch-day integers: `dayjs#diff(-, "day")` between two dates is
  integer subtraction, and the lexicographic comparison of `YYYY-MM-DD`
  strings used in filter expressions agrees with the integer order.
* Thrown `StatusError`s and `TypeError`s are `Except` errors.
* A compiled JavaScript `RegExp` is modelled for the fragment this code
  base builds: an alternation `(?:e1|...|en)` of stored expression
  templates with the `i` flag, tested by case-insensitive substring search
  of the alternatives; `new RegExp(undefined)` compiles the empty pattern,
  which matches every string.
-/

namespace OffDays

open scoped List

/-! ## JavaScript object model -/

/-- An ordered string-keyed map, the model of a JS object literal. -/
abbrev Obj (β : Type) := List (String × β)

/-- JS property read: the value at the first occurrence of the key. -/
def objGet {β : Type} : Obj β → String → Option β
  | [], _ => none
  | (k', v) :: rest, k => if k' = k then some v else objGet rest k

/-- JS property write: replace the value at an existing key in place,
otherwise append the new key at the end (JS insertion order). -/
def objSet {β : Type} : Obj β → String → β → Obj β
  | [], k, v => [(k, v)]
  | (k', v') :: rest, k, v =>
    if k' = k then (k, v) :: rest else (k', v') :: objSet rest k v

/-- The keys of a JS object in insertion order (`Object.keys`). -/
def objKeys {β : Type} (m : Obj β) : List String := m.map Prod.fst

/-- The JS object spread `\x7b...a, ...b\x7d`: keys of `a` in order with
values overridden by `b`, then the new keys of `b` in order. -/
def objMergeSpread {β : Type} (a b : Obj β) : Obj β :=
  b.foldl (fun m p => objSet m p.1 p.2) a

/-- JS truthiness of a possibly-`undefined` boolean (`undefined` is falsy). -/
def jsTruthy : Option Bool → Bool
  | none => false
  | some b => b

/-- JS ToString of a possibly-`undefined` string
(`String(undefined) = "undefined"`). -/
def jsStringArg : Option String → String
  | none => "undefined"
  | some s => s

/-! ## JavaScript RegExp model

The code base only ever builds patterns of the shape
`new RegExp("(?:" + expressions.join("|") + ")", "i")` from stored
expression templates, or `new RegExp(maybeOffExp, "i")` where `maybeOffExp`
may be `undefined`.  We model such a compiled pattern by its list of
alternatives: `test` succeeds when some alternative occurs (case
insensitively, for the `i` flag) as a substring, which is the JS semantics
when the stored expressions are metacharacter-free.  Compiling from
`undefined` yields the empty pattern, whose single empty alternative occurs
in every string. -/

/-- Does `needle` occur as a contiguous run inside `hay`? -/
def listOccursIn (needle : List Char) : List Char → Bool
  | [] => needle.isEmpty
  | c :: rest => needle.isPrefixOf (c :: rest) || listOccursIn needle rest

/-- A compiled JS `RegExp` of the alternation fragment built by this code. -/
structure JsRegExp where
  alts : List String
  ignoreCase : Bool
  deriving Repr, DecidableEq

/-- `str.toLowerCase()` on the character list of a string (the meaning of
`String.map Char.toLower`). -/
def lowerChars (l : List Char) : List Char := l.map Char.toLower

/-- `RegExp.prototype.test`: some alternative occurs as a substring,
lower-casing both sides when the `i` flag is set. -/
def JsRegExp.test (r : JsRegExp) (s : String) : Bool :=
  r.alts.any fun pat =>
    let p := if r.ignoreCase then lowerChars pat.data else pat.data
    let t := if r.ignoreCase then lowerChars s.data else s.data
    listOccursIn p t

/-- `new RegExp(src, "i")` where `src` may be `undefined`: JS compiles
`undefined` as the empty pattern (same as `new RegExp("")`). -/
def jsNewRegExpOpt (src : Option String) : JsRegExp :=
  { alts := [src.getD ""], ignoreCase := true }

/-- `regex.js` `tryBuildRegexForServices`: `null` when no expressions are
passed in, otherwise `new RegExp("(?:" + expressions.join("|") + ")", "i")`. -/
def tryBuildRegexForServices (expressions : List String) : Option JsRegExp :=
  if expressions.length > 0 then some { alts := expressions, ignoreCase := true }
  else none

/-! ## Configuration constants (values from `serverless.yml`) -/

def SCHEDULED_OFF : String := "OFF"
def SCHEDULED_MAYBE_OFF : String := "MAYBE"
def ROLE_INTERN : String := "Intern"
def ROLE_RESIDENT : String := "Resident"
def CLASSIFICATION_KEY_OFF : String := "off"
def CLASSIFICATION_KEY_MAYBE_OFF : String := "maybeOff"
def CLASSIFICATION_KEY_LIKELY_NOT_OFF : String := "likelyNotOff"
def SERVICE_BAYVIEW_ICU : String := "Bayview ICU"
def EXP_PLACEHOLDER_POSITION : String := ":position"

/-- A thrown `StatusError` (`helpers/status-error.js`). -/
structure StatusError where
  statusCode : Nat
  message : String
  deriving Repr, DecidableEq

/-- A failure of a request step: a thrown `StatusError`, a plain JS
`TypeError`, or a DynamoDB ValidationException raised by the store client
when a request is malformed (the HTTP layer maps the latter two to a
500). -/
inductive JsError where
  | status (e : StatusError)
  | typeError (msg : String)
  | dbValidation (msg : String)
  deriving Repr, DecidableEq

/-! ## Block resolver (`block-info.js` and `helpers/db.js`) -/

/-- `dayjs#diff(startDate, "day")` for dates given as epoch-day integers. -/
def dayjsDiffDay (thisDay startDate : Int) : Int := thisDay - startDate

/-- The BlockInfo object of the role-aware variant; `blockName` and `isA`
may be `undefined` because `buildBlockInfo` uses optional chaining. -/
structure BlockInfo where
  blockName : Option String
  isA : Option Bool
  dayNumber : Int
  deriving Repr, DecidableEq

/-- `blockName?.includes("A")`: optional chaining yields `undefined` on an
absent name, and otherwise a substring test. -/
def optChainIncludes (blockName : Option String) (sub : String) : Option Bool :=
  blockName.map fun s => listOccursIn sub.data s.data

/-- `block-info.js` `buildBlockInfo`. -/
def buildBlockInfo (thisDay : Int) (blockName : Option String) (startDate : Int) :
    BlockInfo :=
  { blockName := blockName
    isA := optChainIncludes blockName "A"
    dayNumber := dayjsDiffDay thisDay startDate + 1 }

/-- `block-info.js` `getBlockNameFromBlockInfo`. -/
def getBlockNameFromBlockInfo (b : BlockInfo) : Option String := b.blockName

/-- `block-info.js` `getIsAFromBlockInfo`. -/
def getIsAFromBlockInfo (b : BlockInfo) : Option Bool := b.isA

/-- `block-info.js` `getDayNumberFromBlockInfo`. -/
def getDayNumberFromBlockInfo (b : BlockInfo) : Int := b.dayNumber

/-- A row of the Blocks table as read by the simple variant; the `block`
attribute may be absent (`none`). -/
structure BlockRow where
  block : Option String
  start_date : Int
  end_date : Int
  deriving Repr, DecidableEq

/-- `s.includes(sub)` on a possibly-`undefined` receiver: reading a method
of `undefined` throws a `TypeError`. -/
def jsStringIncludes : Option String → String → Except JsError Bool
  | none, _ => .error (.typeError "Cannot read properties of undefined")
  | some s, sub => .ok (listOccursIn sub.data s.data)

/-- The scan filter of the Blocks table:
`start_date <= :date And end_date >= :date`. -/
def blockMatchesDate (thisDay : Int) (b : BlockRow) : Bool :=
  decide (b.start_date ≤ thisDay) && decide (thisDay ≤ b.end_date)

/-- The block info object returned by the simple variant. -/
structure BlockInfoSimple where
  blockName : Option String
  isA : Bool
  dayNumber : Int
  deriving Repr, DecidableEq

/-- `helpers/db.js` `getBlockInfoForDate` (simple variant): scan the Blocks
table for blocks whose interval contains the date, throw a 404 when none
matches, and otherwise derive the block info from the first match.  Note
`blocks[0].block.includes("A")` has no optional chaining here. -/
def getBlockInfoForDate (table : List BlockRow) (thisDay : Int) :
    Except JsError BlockInfoSimple :=
  match table.filter (blockMatchesDate thisDay) with
  | [] => .error (.status ⟨404, "Could not find a schedule block for that date"⟩)
  | b :: _ =>
    match jsStringIncludes b.block "A" with
    | .error e => .error e
    | .ok isA =>
      .ok { blockName := b.block
            isA := isA
            dayNumber := dayjsDiffDay thisDay b.start_date + 1 }

/-! ## Primary off-rotation fetcher (`templates.js` and `helpers/db.js`
of the role-aware variant) -/

/-- A row of the Templates table.  The numbered day columns are an ordered
map from column name (the stringified day number) to the cell value (a
scheduled-status sentinel); a cell may be absent. -/
structure TemplateRow where
  service : String
  position : String
  role : String
  block_type : String
  dayValues : Obj String
  deriving Repr, DecidableEq

/-- The scan filter of the Templates table:
`#role = :role And (#dayCol = :OFF Or #dayCol = :MAYBE) And
(#blockType = "Any" Or #blockType = (isA ? "A" : "B"))`. -/
def templateRowMatches (role : String) (isA : Bool) (dayNumberColumn : String)
    (r : TemplateRow) : Bool :=
  r.role == role
    && (objGet r.dayValues dayNumberColumn == some SCHEDULED_OFF
        || objGet r.dayValues dayNumberColumn == some SCHEDULED_MAYBE_OFF)
    && (r.block_type == "Any" || r.block_type == (if isA then "A" else "B"))

/-- The off and maybe-off service-to-position maps
(`\x7b[CLASSIFICATION_KEY_OFF]: ..., [CLASSIFICATION_KEY_MAYBE_OFF]: ...\x7d`). -/
structure RotationsByScheduled where
  off : Obj String
  maybeOff : Obj String
  deriving Repr, DecidableEq

/-- `getOffAndMaybeOffRotationsForRole` as inlined in the role-aware
`helpers/db.js`: scan the Templates table with `templateRowMatches`, then
route each row by comparing its day-number cell with
`process.env.SCHEDULED_OFF`; rows whose cell equals the OFF sentinel go to
the off map, the rest to the maybe-off map. -/
def getOffAndMaybeOffRotationsForRole (table : List TemplateRow) (role : String)
    (isA : Bool) (dayNumber : Int) : RotationsByScheduled :=
  let dayNumberColumn := toString dayNumber
  let rows := table.filter (templateRowMatches role isA dayNumberColumn)
  let maps := rows.foldl
    (fun (maps : Obj String × Obj String) r =>
      if objGet r.dayValues dayNumberColumn == some SCHEDULED_OFF then
        (objSet maps.1 r.service r.position, maps.2)
      else
        (maps.1, objSet maps.2 r.service r.position))
    ([], [])
  { off := maps.1, maybeOff := maps.2 }

/-- The value of `process.SCHEDULED_OFF` read by the `templates.js` variant:
the Node `process` object has no such property (the sentinel lives at
`process.env.SCHEDULED_OFF`), so the read yields `undefined`. -/
def processScheduledOff : Option String := none

/-- The keys of the `ExpressionAttributeNames` map of the `templates.js`
scan request. -/
def templatesScanDeclaredNames : List String :=
  ["#service", "#position", "#role", "#scheduledForDayNumberOne",
   "#scheduledForDayNumberTwo", "#blockTypeOne", "#blockTypeTwo"]

/-- The `#name` placeholders referenced by the `templates.js`
FilterExpression string. -/
def templatesScanFilterNames : List String :=
  ["#role", "#scheduledForDayNumberOne", "#scheduledForDayNumberTwo",
   "#blockTypeOne", "#blockTypeTwo"]

/-- The `#name` placeholders referenced by the `templates.js`
ProjectionExpression, the template string
`#service,#position,#<dayNumberColumn>`. -/
def templatesProjectionNames (dayNumberColumn : String) : List String :=
  ["#service", "#position", "#" ++ dayNumberColumn]

/-- DynamoDB request validation: every `#name` placeholder referenced by a
filter or projection expression must be declared in
`ExpressionAttributeNames`; a request referencing an undeclared name is
rejected with a ValidationException before any row is read. -/
def dynamoNamesValid (declared referenced : List String) : Bool :=
  referenced.all fun n => declared.contains n

/-- `templates.js` `getOffAndMaybeOffRotationsForRole` (the earlier
variant).  Its scan request declares `#scheduledForDayNumberOne` and
`#scheduledForDayNumberTwo`, but its ProjectionExpression references
`#<dayNumberColumn>` (for example `#5`), a name that is never declared, so
the request is rejected with a DynamoDB ValidationException and the call
throws before any row is returned.  Were the request valid, the routing
loop would compare each day-number cell with `process.SCHEDULED_OFF`
(an undefined property; the sentinel lives at
`process.env.SCHEDULED_OFF`). -/
def getOffAndMaybeOffRotationsForRoleTemplates (table : List TemplateRow)
    (role : String) (isA : Bool) (dayNumber : Int) :
    Except JsError RotationsByScheduled :=
  let dayNumberColumn := toString dayNumber
  if dynamoNamesValid templatesScanDeclaredNames
      (templatesScanFilterNames ++ templatesProjectionNames dayNumberColumn) then
    let rows := table.filter (templateRowMatches role isA dayNumberColumn)
    let maps := rows.foldl
      (fun (maps : Obj String × Obj String) r =>
        if objGet r.dayValues dayNumberColumn == processScheduledOff then
          (objSet maps.1 r.service r.position, maps.2)
        else
          (maps.1, objSet maps.2 r.service r.position))
      ([], [])
    .ok { off := maps.1, maybeOff := maps.2 }
  else
    .error (.dbValidation
      "Invalid ProjectionExpression: An expression attribute name used in the document path is not defined")

/-! ## Secondary-site fetcher (`getBayviewOffRotations`) -/

/-- A row of the BayviewTemplates table: the ordered columns, the first
being the `date` key and the rest one position slot each. -/
abbrev BayviewRow := Obj String

/-- The key-condition query `#date = :date` on the BayviewTemplates table. -/
def bayviewQuery (table : List BayviewRow) (dateStr : String) : List BayviewRow :=
  table.filter fun row => objGet row "date" == some dateStr

/-- `getBayviewOffRotations`: query the Bayview templates by exact date,
throw a 404 when no row is found, and otherwise record, for every column of
the first row whose value equals the OFF sentinel, the column name as the
position of the one fixed synthetic service `SERVICE_BAYVIEW_ICU` (later
qualifying columns overwrite earlier ones). -/
def getBayviewOffRotations (table : List BayviewRow) (dateStr : String) :
    Except StatusError (Obj String) :=
  match bayviewQuery table dateStr with
  | [] => .error ⟨404, "Could not find any Bayview schedules for given date"⟩
  | bvTemplateForDay :: _ =>
    .ok (bvTemplateForDay.foldl
      (fun m p =>
        if p.2 == SCHEDULED_OFF then objSet m SERVICE_BAYVIEW_ICU p.1 else m)
      [])

/-- `getRotationsByScheduledForRoleAndBlockInfo`: fetch the primary off and
maybe-off maps; only for the resident role also fetch the Bayview off map
and spread it into the off map (Bayview has no maybe-off status). -/
def getRotationsByScheduledForRoleAndBlockInfo (templates : List TemplateRow)
    (bvTable : List BayviewRow) (dateStr : String) (role : String) (isA : Bool)
    (dayNumber : Int) : Except StatusError RotationsByScheduled :=
  let rotationsByScheduled := getOffAndMaybeOffRotationsForRole templates role isA dayNumber
  if role == ROLE_RESIDENT then
    match getBayviewOffRotations bvTable dateStr with
    | .error e => .error e
    | .ok bvOffRotations =>
      .ok { rotationsByScheduled with
            off := objMergeSpread rotationsByScheduled.off bvOffRotations }
  else
    .ok rotationsByScheduled

/-! ## Simple-variant fetcher (`helpers/db.js`
`getRotationsOffForBlockInfo` with the Weinberg secondary site) -/

/-- A row of the WeinbergTemplates table: the ordered columns, the first
being the `date` key and the rest one service column each. -/
abbrev WeinbergRow := Obj String

/-- The key-condition query `#date = :date` on the WeinbergTemplates
table. -/
def weinbergQuery (table : List WeinbergRow) (dateStr : String) : List WeinbergRow :=
  table.filter fun row => objGet row "date" == some dateStr

/-- The scan filter of `getRotationsOffExceptWeinberg`:
`#dayNumber = :dayNumber And (#blockTypeOne = :blockTypeOne Or
#blockTypeTwo = :blockTypeTwo)` with `:dayNumber` the `POSITION_OFF`
sentinel (no role attribute in the simple variant). -/
def simpleTemplateRowMatches (positionOff : String) (isA : Bool)
    (dayNumberColumn : String) (r : TemplateRow) : Bool :=
  objGet r.dayValues dayNumberColumn == some positionOff
    && (r.block_type == "Any" || r.block_type == (if isA then "A" else "B"))

/-- `helpers/db.js` `getRotationsOffExceptWeinberg` (simple variant): the
scanned rows projected to their service and position.  `positionOff` is the
configured `POSITION_OFF` sentinel (its value is not recorded in the
repository). -/
def getRotationsOffExceptWeinberg (table : List TemplateRow)
    (positionOff : String) (isA : Bool) (dayNumber : Int) :
    List (String × String) :=
  (table.filter (simpleTemplateRowMatches positionOff isA (toString dayNumber))).map
    fun r => (r.service, r.position)

/-- `helpers/db.js` `getWeinbergRotationsOff`: query the Weinberg templates
by exact date, throw a 404 when no row is found, and otherwise turn every
column of the first row whose value equals the `POSITION_OFF` sentinel into
a fact with the column name as service and the fixed position `Days`. -/
def getWeinbergRotationsOff (table : List WeinbergRow) (positionOff : String)
    (dateStr : String) : Except StatusError (List (String × String)) :=
  match weinbergQuery table dateStr with
  | [] => .error ⟨404, "Could not find any Weinberg schedules for given date"⟩
  | templateRow :: _ =>
    .ok (templateRow.foldl
      (fun array p => if p.2 == positionOff then array ++ [(p.1, "Days")] else array)
      [])

/-- `helpers/db.js` `getRotationsOffForBlockInfo`: await both fetches (a
rejection of either aborts the whole step) and fold the concatenated facts,
primary first then Weinberg, into one service-to-position object. -/
def getRotationsOffForBlockInfo (templTable : List TemplateRow)
    (wbgTable : List WeinbergRow) (positionOff : String) (dateStr : String)
    (isA : Bool) (dayNumber : Int) : Except StatusError (Obj String) :=
  match getWeinbergRotationsOff wbgTable positionOff dateStr with
  | .error e => .error e
  | .ok wbgOffRotations =>
    .ok ((getRotationsOffExceptWeinberg templTable positionOff isA dayNumber
        ++ wbgOffRotations).foldl
      (fun obj rotation => objSet obj rotation.1 rotation.2) [])

/-! ## Rule builder -/

/-- A row of the ServiceRegex table: a service name and its stored
expression template (with the `:position` placeholder). -/
structure ServiceRegexRow where
  service : String
  expression : String
  deriving Repr, DecidableEq

/-- The expression arrays built by the role-aware
`getRegexForRotationsByScheduled`: scan the ServiceRegex table for the
pooled service names, then push the expression of each row, with the placeholder
replaced by the resolved position, into the maybe-off array when the
service is a maybe-off service and into the off array otherwise. -/
def buildExpArrays (table : List ServiceRegexRow) (rot : RotationsByScheduled) :
    List String × List String :=
  let services := objKeys rot.off ++ objKeys rot.maybeOff
  let rows := table.filter fun r => services.contains r.service
  rows.foldl
    (fun arrays r =>
      let isMaybeOff := (objKeys rot.maybeOff).contains r.service
      let sourceMap := if isMaybeOff then rot.maybeOff else rot.off
      let exp := r.expression.replace EXP_PLACEHOLDER_POSITION
        (jsStringArg (objGet sourceMap r.service))
      if isMaybeOff then (arrays.1, arrays.2 ++ [exp]) else (arrays.1 ++ [exp], arrays.2))
    ([], [])

/-- Role-aware `getRegexForRotationsByScheduled`: build the per-category
expression arrays, compile each through `tryBuildRegexForServices`, and drop
the `null` entries (`Object.fromEntries(... .filter(v != null))`). -/
def getRegexForRotationsByScheduled (table : List ServiceRegexRow)
    (rot : RotationsByScheduled) : Obj JsRegExp :=
  let arrays := buildExpArrays table rot
  ([(CLASSIFICATION_KEY_OFF, tryBuildRegexForServices arrays.1),
    (CLASSIFICATION_KEY_MAYBE_OFF, tryBuildRegexForServices arrays.2)]).filterMap
    fun p => p.2.map fun r => (p.1, r)

/-- The forEach of the simple `getRegexForOffRotations`: scan the
ServiceRegex table for the off services plus the generic maybe-off service
key; a row for the maybe-off key stores its raw expression (last one wins),
every other row pushes its substituted expression onto the off array. -/
def buildOffExpsAndMaybeExp (table : List ServiceRegexRow)
    (maybeOffServiceKey : String) (offRotations : Obj String) :
    List String × Option String :=
  let services := objKeys offRotations ++ [maybeOffServiceKey]
  let rows := table.filter fun r => services.contains r.service
  rows.foldl
    (fun acc r =>
      if r.service == maybeOffServiceKey then (acc.1, some r.expression)
      else
        (acc.1 ++ [r.expression.replace EXP_PLACEHOLDER_POSITION
          (jsStringArg (objGet offRotations r.service))], acc.2))
    ([], none)

/-- Simple-variant `helpers/db.js` `getRegexForOffRotations`: always return
`\x7bmaybeOff: new RegExp(maybeOffExp, "i")\x7d` (even when `maybeOffExp` is
still `undefined`), and add an `off` pattern only when the off expression
array is non-empty.  `maybeOffServiceKey` is the configured
`MAYBE_OFF_SERVICES` value (not recorded in the repository). -/
def getRegexForOffRotations (table : List ServiceRegexRow)
    (maybeOffServiceKey : String) (offRotations : Obj String) : Obj JsRegExp :=
  let built := buildOffExpsAndMaybeExp table maybeOffServiceKey offRotations
  let regexByStatus : Obj JsRegExp := [("maybeOff", jsNewRegExpOpt built.2)]
  if built.1.length > 0 then
    objSet regexByStatus "off" { alts := built.1, ignoreCase := true }
  else
    regexByStatus

/-! ## Assignment classifiers -/

/-- The value stored per name by `getSchedulesForRoleAndBlockName`:
`\x7b[SCHEDULE_KEY_ROLE]: role, [SCHEDULE_KEY_ASSIGNMENT]: schedule[blockName]\x7d`;
the assignment cell may be absent (`undefined`). -/
structure ScheduleVal where
  role : String
  assignment : Option String
  deriving Repr, DecidableEq

/-- A classified `\x7bname, role, assignment\x7d` object pushed into a bucket by
the role-aware classifier. -/
structure ClassifiedEntry where
  name : String
  role : String
  assignment : Option String
  deriving Repr, DecidableEq

/-- A classified `\x7bname, assignment\x7d` object of the simple classifier. -/
structure SimpleEntry where
  name : String
  assignment : String
  deriving Repr, DecidableEq

/-- `Array.prototype.sort` with the comparator
`(n1 === n2 ? 0 : n1 > n2 ? 1 : -1)` over the `name` key: a stable
ascending sort by name, modelled by insertion sort. -/
def sortByName {α : Type} (nameOf : α → String) (l : List α) : List α :=
  l.insertionSort fun a b => nameOf a ≤ nameOf b

/-- The inner loop of the role-aware classifier: starting from the default
`likelyNotOff` key, walk the rule map in insertion order and remember the
key of every rule whose pattern matches, so the last matching category
wins. -/
def classifyKey (regExpInfo : Obj JsRegExp) (assignment : Option String) : String :=
  regExpInfo.foldl
    (fun acc p => if p.2.test (jsStringArg assignment) then p.1 else acc)
    CLASSIFICATION_KEY_LIKELY_NOT_OFF

/-- `helpers/output.js` `classifySchedulesByStatus` (role-aware, exhaustive):
create one empty bucket per rule-map key plus the default `likelyNotOff`
bucket, push every roster entry into the bucket chosen by `classifyKey`,
then sort each bucket by name. -/
def classifySchedulesByStatus (regExpInfo : Obj JsRegExp)
    (schedules : Obj ScheduleVal) : Obj (List ClassifiedEntry) :=
  let withRuleKeys := regExpInfo.foldl (fun m p => objSet m p.1 []) []
  let classifiedSchedules := objSet withRuleKeys CLASSIFICATION_KEY_LIKELY_NOT_OFF []
  let filled := schedules.foldl
    (fun m p =>
      let key := classifyKey regExpInfo p.2.assignment
      objSet m key ((objGet m key).getD [] ++ [⟨p.1, p.2.role, p.2.assignment⟩]))
    classifiedSchedules
  filled.map fun p => (p.1, sortByName ClassifiedEntry.name p.2)

/-- `helpers/output.js` `classifySchedulesByStatus` of the simple variant
(non-exhaustive): for each category of the rule map independently, collect
every roster entry whose assignment matches, sorted by name; no default
bucket. -/
def classifySchedulesByStatusSimple (regExpInfo : Obj JsRegExp)
    (schedules : Obj String) : Obj (List SimpleEntry) :=
  regExpInfo.foldl
    (fun m p =>
      objSet m p.1 (sortByName SimpleEntry.name
        (schedules.filterMap fun q =>
          if p.2.test q.2 then some ⟨q.1, q.2⟩ else none)))
    []

/-! ## Per-role request pipeline (`helpers/output.js`
`classifySchedulesForRoleAndBlockInfo`) -/

/-- A row of the Schedules table: a name, a role, and one assignment cell
per block-name column. -/
structure SchedRow where
  name : String
  role : String
  blocks : Obj String
  deriving Repr, DecidableEq

/-- `getSchedulesForRoleAndBlockName` (role-aware `helpers/db.js`): scan the
Schedules table filtered by `#role = :role` and map the name of each row to its
role and its assignment in the block-name column. -/
def getSchedulesForRoleAndBlockName (table : List SchedRow) (role : String)
    (blockName : String) : Obj ScheduleVal :=
  (table.filter fun r => r.role == role).foldl
    (fun m r => objSet m r.name ⟨role, objGet r.blocks blockName⟩) []

/-- `classifySchedulesForRoleAndBlockInfo`: fetch the roster and the off and
maybe-off rotation maps, build the category patterns, and classify; any
thrown `StatusError` (in particular the Bayview 404) aborts the whole step
with no partial classification. -/
def classifySchedulesForRoleAndBlockInfo (schedTable : List SchedRow)
    (templates : List TemplateRow) (bvTable : List BayviewRow)
    (regexTable : List ServiceRegexRow) (dateStr : String) (role : String)
    (blockInfo : BlockInfo) : Except StatusError (Obj (List ClassifiedEntry)) :=
  let schedules := getSchedulesForRoleAndBlockName schedTable role
    (jsStringArg (getBlockNameFromBlockInfo blockInfo))
  match getRotationsByScheduledForRoleAndBlockInfo templates bvTable dateStr role
      (jsTruthy (getIsAFromBlockInfo blockInfo))
      (getDayNumberFromBlockInfo blockInfo) with
  | .error e => .error e
  | .ok rotationsByScheduled =>
    .ok (classifySchedulesByStatus
      (getRegexForRotationsByScheduled regexTable rotationsByScheduled) schedules)

/-! ## Derived views used by the verification -/

/-- The concatenation of all bucket contents of a bucket map. -/
def objValsJoin {α : Type} (m : Obj (List α)) : List α := (m.map Prod.snd).flatten

/-- The roster entries that the role-aware classifier routes to bucket `k`,
in roster order. -/
def bucketSelect (R : Obj JsRegExp) (S : Obj ScheduleVal) (k : String) :
    List ClassifiedEntry :=
  S.filterMap fun p =>
    if classifyKey R p.2.assignment = k then some ⟨p.1, p.2.role, p.2.assignment⟩
    else none

/-! ## Helper lemmas about the JS object model -/

theorem objGet_objSet {β : Type} (m : Obj β) (k k2 : String) (v : β) :
    objGet (objSet m k v) k2 = if k = k2 then some v else objGet m k2 := by
  induction m with
  | nil =>
    by_cases h : k = k2 <;> simp [objSet, objGet, h]
  | cons p rest ih =>
    obtain ⟨k', v'⟩ := p
    by_cases h : k' = k
    · subst h
      by_cases h2 : k' = k2
      · subst h2
        simp [objSet, objGet]
      · simp [objSet, objGet, h2]
    · by_cases h2 : k' = k2
      · subst h2
        have hne : ¬k = k' := fun hkk => h hkk.symm
        simp [objSet, objGet, h, hne]
      · simp [objSet, objGet, h, h2, ih]

theorem objGet_eq_none_of_not_mem {β : Type} (m : Obj β) (k : String)
    (h : k ∉ objKeys m) : objGet m k = none := by
  induction m with
  | nil => rfl
  | cons p rest ih =>
    simp only [objKeys, List.map_cons, List.mem_cons, not_or] at h
    have h1 : ¬p.1 = k := fun h' => h.1 h'.symm
    simp only [objGet, if_neg h1]
    exact ih h.2

theorem isSome_objGet_of_mem {β : Type} (m : Obj β) (k : String)
    (h : k ∈ objKeys m) : (objGet m k).isSome := by
  induction m with
  | nil => simp [objKeys] at h
  | cons p rest ih =>
    simp only [objKeys, List.map_cons, List.mem_cons] at h
    by_cases hk : p.1 = k
    · simp [objGet, hk]
    · rcases h with h | h
      · exact absurd h.symm hk
      · simpa [objGet, hk] using ih h

theorem objGet_mem {β : Type} (m : Obj β) {k : String} {v : β}
    (h : objGet m k = some v) : (k, v) ∈ m := by
  induction m with
  | nil => simp [objGet] at h
  | cons p rest ih =>
    obtain ⟨k', v'⟩ := p
    by_cases hk : k' = k
    · subst hk
      simp only [objGet, if_pos rfl] at h
      injection h with h2
      subst h2
      exact List.mem_cons_self _ _
    · simp only [objGet, if_neg hk] at h
      exact List.mem_cons_of_mem _ (ih h)

theorem mem_objKeys_of_objGet {β : Type} (m : Obj β) {k : String} {v : β}
    (h : objGet m k = some v) : k ∈ objKeys m := by
  have := objGet_mem m h
  exact List.mem_map.mpr ⟨(k, v), this, rfl⟩

theorem objKeys_objSet_of_mem {β : Type} (m : Obj β) (k : String) (v : β)
    (h : k ∈ objKeys m) : objKeys (objSet m k v) = objKeys m := by
  induction m with
  | nil => simp [objKeys] at h
  | cons p rest ih =>
    obtain ⟨k', v'⟩ := p
    by_cases hk : k' = k
    · simp [objSet, hk, objKeys]
    · simp only [objKeys, List.map_cons, List.mem_cons] at h
      rcases h with h | h
      · exact absurd h.symm hk
      · have h2 := ih (by simpa [objKeys] using h)
        simp only [objKeys] at h2 ⊢
        simp [objSet, if_neg hk, h2]

theorem objSet_objSet_same {β : Type} (m : Obj β) (k : String) (v w : β) :
    objSet (objSet m k v) k w = objSet m k w := by
  induction m with
  | nil => simp [objSet]
  | cons p rest ih =>
    by_cases hk : p.1 = k
    · simp [objSet, hk]
    · simp [objSet, hk, ih]

theorem objValsJoin_push {α : Type} (m : Obj (List α)) (k : String) (e : α) :
    objValsJoin (objSet m k ((objGet m k).getD [] ++ [e])) ~ e :: objValsJoin m := by
  induction m with
  | nil => simp [objValsJoin, objSet, objGet]
  | cons p rest ih =>
    obtain ⟨k', v'⟩ := p
    by_cases hk : k' = k
    · subst hk
      simp only [objGet, if_pos rfl, Option.getD_some, objSet, objValsJoin,
        List.map_cons, List.flatten]
      calc (v' ++ [e]) ++ (rest.map Prod.snd).flatten
          = v' ++ e :: (rest.map Prod.snd).flatten := by simp
        _ ~ e :: (v' ++ (rest.map Prod.snd).flatten) := List.perm_middle
    · simp only [objGet, if_neg hk, objSet, objValsJoin, List.map_cons, List.flatten]
      calc v' ++ (((objSet rest k ((objGet rest k).getD [] ++ [e])).map Prod.snd).flatten)
          ~ v' ++ (e :: (rest.map Prod.snd).flatten) := (ih).append_left v'
        _ ~ e :: (v' ++ (rest.map Prod.snd).flatten) := List.perm_middle

theorem objValsJoin_foldl_push {α σ : Type} (keyOf : σ → String) (entryOf : σ → α) :
    ∀ (schedules : List σ) (m : Obj (List α)),
      objValsJoin (schedules.foldl
        (fun m p => objSet m (keyOf p) ((objGet m (keyOf p)).getD [] ++ [entryOf p])) m)
        ~ objValsJoin m ++ schedules.map entryOf := by
  intro schedules
  induction schedules with
  | nil => intro m; simp
  | cons p rest ih =>
    intro m
    simp only [List.foldl_cons, List.map_cons]
    calc objValsJoin (rest.foldl _ (objSet m (keyOf p)
            ((objGet m (keyOf p)).getD [] ++ [entryOf p])))
        ~ objValsJoin (objSet m (keyOf p)
            ((objGet m (keyOf p)).getD [] ++ [entryOf p])) ++ rest.map entryOf := ih _
      _ ~ (entryOf p :: objValsJoin m) ++ rest.map entryOf :=
          (objValsJoin_push m (keyOf p) (entryOf p)).append_right _
      _ ~ objValsJoin m ++ entryOf p :: rest.map entryOf := List.perm_middle.symm

theorem snd_eq_nil_objSet {α : Type} (m : Obj (List α)) (k : String)
    (h : ∀ p ∈ m, p.2 = ([] : List α)) :
    ∀ p ∈ objSet m k ([] : List α), p.2 = ([] : List α) := by
  induction m with
  | nil => simp [objSet]
  | cons q rest ih =>
    intro p hp
    by_cases hk : q.1 = k
    · simp only [objSet, if_pos hk] at hp
      rcases List.mem_cons.mp hp with h' | h'
      · subst h'; rfl
      · exact h p (List.mem_cons_of_mem _ h')
    · simp only [objSet, if_neg hk] at hp
      rcases List.mem_cons.mp hp with h' | h'
      · exact h p (h' ▸ List.mem_cons_self _ _)
      · exact ih (fun q' hq' => h q' (List.mem_cons_of_mem _ hq')) p h'

theorem snd_eq_nil_foldl {α ρ : Type} (kf : ρ → String) :
    ∀ (R : List ρ) (m : Obj (List α)), (∀ p ∈ m, p.2 = ([] : List α)) →
      ∀ p ∈ R.foldl (fun m q => objSet m (kf q) []) m, p.2 = ([] : List α) := by
  intro R
  induction R with
  | nil => intro m h; simpa using h
  | cons q rest ih =>
    intro m h
    simp only [List.foldl_cons]
    exact ih _ (snd_eq_nil_objSet m (kf q) h)

theorem objValsJoin_eq_nil {α : Type} (m : Obj (List α))
    (h : ∀ p ∈ m, p.2 = ([] : List α)) : objValsJoin m = [] := by
  induction m with
  | nil => rfl
  | cons p rest ih =>
    have h1 := h p (List.mem_cons_self _ _)
    have h2 := ih fun q hq => h q (List.mem_cons_of_mem _ hq)
    simp only [objValsJoin, List.map_cons, List.flatten] at h2 ⊢
    simp [h1, h2]

theorem objValsJoin_map_sort {α : Type} (m : Obj (List α)) (nameOf : α → String) :
    objValsJoin (m.map fun p => (p.1, sortByName nameOf p.2)) ~ objValsJoin m := by
  induction m with
  | nil => rfl
  | cons p rest ih =>
    simp only [objValsJoin, List.map_cons, List.flatten] at ih ⊢
    exact (List.perm_insertionSort _ p.2).append ih

theorem objGet_foldl_setConstEmpty {α ρ : Type} (kf : ρ → String) :
    ∀ (R : List ρ) (m0 : Obj (List α)) (k : String),
      objGet (R.foldl (fun m q => objSet m (kf q) []) m0) k
        = if k ∈ R.map kf then some [] else objGet m0 k := by
  intro R
  induction R with
  | nil => intro m0 k; simp
  | cons q rest ih =>
    intro m0 k
    simp only [List.foldl_cons, List.map_cons, List.mem_cons]
    rw [ih]
    by_cases hr : k ∈ rest.map kf
    · simp [hr]
    · by_cases hq : kf q = k
      · simp [hr, hq, objGet_objSet]
      · have : ¬k = kf q := fun h => hq h.symm
        simp [hr, hq, this, objGet_objSet]

theorem objGet_foldl_set_not_mem {β ρ : Type} (kf : ρ → String) (g : ρ → β) :
    ∀ (R : List ρ) (m0 : Obj β) (k : String), k ∉ R.map kf →
      objGet (R.foldl (fun m q => objSet m (kf q) (g q)) m0) k = objGet m0 k := by
  intro R
  induction R with
  | nil => intro m0 k _; rfl
  | cons q rest ih =>
    intro m0 k h
    simp only [List.map_cons, List.mem_cons, not_or] at h
    simp only [List.foldl_cons]
    rw [ih _ _ h.2, objGet_objSet, if_neg (fun h' => h.1 h'.symm)]

theorem objGet_foldl_set_of_mem {β ρ : Type} (kf : ρ → String) (g : ρ → β) :
    ∀ (R : List ρ) (m0 : Obj β) (p : ρ), (R.map kf).Nodup → p ∈ R →
      objGet (R.foldl (fun m q => objSet m (kf q) (g q)) m0) (kf p) = some (g p) := by
  intro R
  induction R with
  | nil => intro m0 p _ hp; simp at hp
  | cons q rest ih =>
    intro m0 p hnd hp
    simp only [List.map_cons, List.nodup_cons] at hnd
    simp only [List.foldl_cons]
    rcases List.mem_cons.mp hp with h | h
    · subst h
      rw [objGet_foldl_set_not_mem kf g rest _ _ hnd.1, objGet_objSet, if_pos rfl]
    · exact ih _ p hnd.2 h

/-- Which rule-map categories the classifier inner loop can ever produce. -/
theorem classifyKey_mem (R : Obj JsRegExp) (a : Option String) :
    classifyKey R a = CLASSIFICATION_KEY_LIKELY_NOT_OFF ∨ classifyKey R a ∈ objKeys R := by
  unfold classifyKey
  have : ∀ (R' : List (String × JsRegExp)) (acc : String),
      R'.foldl (fun acc p => if p.2.test (jsStringArg a) then p.1 else acc) acc
        = acc ∨
      R'.foldl (fun acc p => if p.2.test (jsStringArg a) then p.1 else acc) acc
        ∈ R'.map Prod.fst := by
    intro R'
    induction R' with
    | nil => intro acc; left; rfl
    | cons p rest ih =>
      intro acc
      simp only [List.foldl_cons, List.map_cons]
      by_cases h : p.2.test (jsStringArg a)
      · rw [if_pos h]
        rcases ih p.1 with h' | h'
        · right; rw [h']; exact List.mem_cons_self _ _
        · right; exact List.mem_cons_of_mem _ h'
      · rw [if_neg h]
        rcases ih acc with h' | h'
        · left; exact h'
        · right; exact List.mem_cons_of_mem _ h'
  exact this R CLASSIFICATION_KEY_LIKELY_NOT_OFF

/-- The last matching category wins: the classifier inner loop returns the
key of the last rule (in insertion order) whose pattern matches, and the
start accumulator when none matches. -/
theorem foldl_lastMatch (s : String) :
    ∀ (R : Obj JsRegExp) (acc : String),
      R.foldl (fun acc p => if p.2.test s then p.1 else acc) acc
        = match (R.filter fun p => p.2.test s).getLast? with
          | some p => p.1
          | none => acc := by
  intro R
  induction R with
  | nil => intro acc; rfl
  | cons p rest ih =>
    intro acc
    simp only [List.foldl_cons, List.filter_cons]
    by_cases h : p.2.test s
    · rw [if_pos h, if_pos h, ih]
      cases hrf : (rest.filter fun q => q.2.test s) with
      | nil => simp [hrf]
      | cons x xs =>
        rw [List.getLast?_cons_cons]
        cases hg : (x :: xs).getLast? with
        | none => exact absurd hg (by simp [List.getLast?_eq_none_iff])
        | some q => rfl
    · rw [if_neg h, if_neg h, ih]

theorem objGet_map_sortByName {α : Type} (nameOf : α → String) (m : Obj (List α))
    (k : String) :
    objGet (m.map fun p => (p.1, sortByName nameOf p.2)) k
      = (objGet m k).map (sortByName nameOf) := by
  induction m with
  | nil => rfl
  | cons p rest ih =>
    by_cases hk : p.1 = k
    · simp [objGet, hk]
    · simp [objGet, hk, ih]

theorem objGet_classify_fold (R : Obj JsRegExp) :
    ∀ (S : Obj ScheduleVal) (m : Obj (List ClassifiedEntry)) (k : String),
      (∀ p ∈ S, classifyKey R p.2.assignment ∈ objKeys m) →
      objGet (S.foldl (fun m p =>
          let key := classifyKey R p.2.assignment
          objSet m key ((objGet m key).getD [] ++ [⟨p.1, p.2.role, p.2.assignment⟩])) m) k
        = (objGet m k).map (· ++ bucketSelect R S k) := by
  intro S
  induction S with
  | nil =>
    intro m k _
    cases hm : objGet m k <;> simp [bucketSelect, hm]
  | cons p rest ih =>
    intro m k h
    have hpk : classifyKey R p.2.assignment ∈ objKeys m :=
      h p (List.mem_cons_self _ _)
    obtain ⟨v, hv⟩ := Option.isSome_iff_exists.mp (isSome_objGet_of_mem m _ hpk)
    have hkeys :
        objKeys (objSet m (classifyKey R p.2.assignment)
          ((objGet m (classifyKey R p.2.assignment)).getD []
            ++ [⟨p.1, p.2.role, p.2.assignment⟩])) = objKeys m :=
      objKeys_objSet_of_mem m _ _ hpk
    simp only [List.foldl_cons]
    rw [ih _ k (fun q hq => by rw [hkeys]; exact h q (List.mem_cons_of_mem _ hq))]
    rw [objGet_objSet, hv]
    by_cases hck : classifyKey R p.2.assignment = k
    · rw [if_pos hck, ← hck, hv]
      simp only [Option.getD_some, Option.map_some]
      simp [bucketSelect, List.filterMap_cons, hck]
    · rw [if_neg hck]
      cases hmk : objGet m k <;> simp [bucketSelect, List.filterMap_cons, hck, hmk]

/-- The full characterization of the role-aware classifier output: one
bucket per rule-map key plus the default bucket, each holding exactly the
roster entries whose `classifyKey` is that key, sorted by name; no other
bucket exists. -/
theorem objGet_classifySchedulesByStatus (R : Obj JsRegExp) (S : Obj ScheduleVal)
    (k : String) :
    objGet (classifySchedulesByStatus R S) k
      = if k = CLASSIFICATION_KEY_LIKELY_NOT_OFF ∨ k ∈ objKeys R then
          some (sortByName ClassifiedEntry.name (bucketSelect R S k))
        else none := by
  have hinit : ∀ k2 : String,
      objGet (objSet (R.foldl (fun m p => objSet m p.1 []) [])
          CLASSIFICATION_KEY_LIKELY_NOT_OFF ([] : List ClassifiedEntry)) k2
        = if k2 = CLASSIFICATION_KEY_LIKELY_NOT_OFF ∨ k2 ∈ objKeys R then some []
          else none := by
    intro k2
    rw [objGet_objSet]
    by_cases h1 : CLASSIFICATION_KEY_LIKELY_NOT_OFF = k2
    · simp [h1]
    · have h1' : ¬k2 = CLASSIFICATION_KEY_LIKELY_NOT_OFF := fun h => h1 h.symm
      rw [if_neg h1, objGet_foldl_setConstEmpty Prod.fst R [] k2]
      by_cases h2 : k2 ∈ List.map Prod.fst R
      · simp [objKeys, h2, h1']
      · simp [objKeys, h2, h1', objGet]
  unfold classifySchedulesByStatus
  rw [objGet_map_sortByName]
  rw [objGet_classify_fold R S _ k (fun p _ => by
    rcases classifyKey_mem R p.2.assignment with h | h
    · exact mem_objKeys_of_objGet _ (by rw [hinit, if_pos (Or.inl h)])
    · exact mem_objKeys_of_objGet _ (by rw [hinit, if_pos (Or.inr h)]))]
  rw [hinit k]
  by_cases hc : k = CLASSIFICATION_KEY_LIKELY_NOT_OFF ∨ k ∈ objKeys R
  · simp [hc]
  · simp [hc]

theorem countP_filterMap_if {σ α : Type} (p : σ → Bool) (f : σ → α) (good : α → Bool) :
    ∀ S : List σ,
      ((S.filterMap fun q => if p q then some (f q) else none).countP good)
        = S.countP fun q => p q && good (f q) := by
  intro S
  induction S with
  | nil => rfl
  | cons q rest ih =>
    by_cases h : p q
    · by_cases h2 : good (f q) <;>
        simp [List.filterMap_cons, h, List.countP_cons, ih, h2]
    · simp [List.filterMap_cons, h, List.countP_cons, ih]

theorem countP_key_unique {β : Type} (good : β → Bool) :
    ∀ (S : List (String × β)) (n : String) (b : β), (S.map Prod.fst).Nodup →
      (n, b) ∈ S →
      (S.countP fun q => (q.1 == n) && good q.2) = if good b then 1 else 0 := by
  intro S
  induction S with
  | nil => intro n b _ hmem; simp at hmem
  | cons q rest ih =>
    intro n b hnd hmem
    simp only [List.map_cons, List.nodup_cons] at hnd
    by_cases hq : q.1 = n
    · have hq' : q = (n, b) := by
        rcases List.mem_cons.mp hmem with h | h
        · exact h.symm
        · exact absurd (hq ▸ List.mem_map.mpr ⟨(n, b), h, rfl⟩) hnd.1
      have hzero : (rest.countP fun q => (q.1 == n) && good q.2) = 0 := by
        apply List.countP_eq_zero.mpr
        intro a ha
        have : a.1 ≠ n := fun h => (hq ▸ hnd.1) (List.mem_map.mpr ⟨a, ha, h⟩)
        simp [this]
      subst hq'
      simp [List.countP_cons, hzero]
    · have hmem' : (n, b) ∈ rest := by
        rcases List.mem_cons.mp hmem with h | h
        · exact absurd (congrArg Prod.fst h.symm) hq
        · exact h
      simp [List.countP_cons, hq, ih n b hnd.2 hmem']

theorem objGet_classifySimple_of_mem (R : Obj JsRegExp) (S : Obj String)
    {k : String} {r : JsRegExp} (hnd : (objKeys R).Nodup) (hmem : (k, r) ∈ R) :
    objGet (classifySchedulesByStatusSimple R S) k
      = some (sortByName SimpleEntry.name
          (S.filterMap fun q => if r.test q.2 then some ⟨q.1, q.2⟩ else none)) := by
  unfold classifySchedulesByStatusSimple
  exact objGet_foldl_set_of_mem Prod.fst
    (fun p => sortByName SimpleEntry.name
      (S.filterMap fun q => if p.2.test q.2 then some ⟨q.1, q.2⟩ else none))
    R [] (k, r) hnd hmem

theorem mem_bucketSelect_self (R : Obj JsRegExp) (S : Obj ScheduleVal) {n : String}
    {v : ScheduleVal} (hmem : (n, v) ∈ S) :
    (⟨n, v.role, v.assignment⟩ : ClassifiedEntry)
      ∈ bucketSelect R S (classifyKey R v.assignment) := by
  unfold bucketSelect
  exact List.mem_filterMap.mpr ⟨(n, v), hmem, by simp⟩

theorem mem_sortByName {α : Type} (nameOf : α → String) (l : List α) (a : α) :
    a ∈ sortByName nameOf l ↔ a ∈ l :=
  (List.perm_insertionSort _ l).mem_iff

theorem countP_sortByName {α : Type} (nameOf : α → String) (l : List α)
    (p : α → Bool) : (sortByName nameOf l).countP p = l.countP p :=
  (List.perm_insertionSort _ l).countP_eq p

theorem classify_join_perm (R : Obj JsRegExp) (S : Obj ScheduleVal) :
    objValsJoin (classifySchedulesByStatus R S)
      ~ S.map fun p => (⟨p.1, p.2.role, p.2.assignment⟩ : ClassifiedEntry) := by
  simp only [classifySchedulesByStatus]
  refine (objValsJoin_map_sort _ _).trans ?_
  refine (objValsJoin_foldl_push (fun p => classifyKey R p.2.assignment)
    (fun p => (⟨p.1, p.2.role, p.2.assignment⟩ : ClassifiedEntry)) S _).trans ?_
  have hnil : objValsJoin (objSet (R.foldl (fun m p => objSet m p.1 []) [])
      CLASSIFICATION_KEY_LIKELY_NOT_OFF ([] : List ClassifiedEntry)) = [] :=
    objValsJoin_eq_nil _
      (snd_eq_nil_objSet _ _ (snd_eq_nil_foldl Prod.fst R [] (by simp)))
  rw [hnil, List.nil_append]

/-- **C1.** In the role-aware (exhaustive) classifier every roster member
lands in exactly one bucket: counting, over the concatenation of all
buckets of `classifySchedulesByStatus`, the entries carrying a given name
gives exactly the number of roster entries with that name — in particular
exactly one when roster names are distinct and the name is on the roster.
In the simple (non-exhaustive) classifier, a roster member appears in the
bucket of a category exactly once when the category pattern matches their
assignment and zero times otherwise, independently for every category. -/
theorem classifier_membership_c1 :
    (∀ (R : Obj JsRegExp) (S : Obj ScheduleVal) (n : String),
      (objValsJoin (classifySchedulesByStatus R S)).countP (fun e => e.name == n)
        = S.countP fun p => p.1 == n)
    ∧ (∀ (R : Obj JsRegExp) (S : Obj ScheduleVal) (n : String),
        (S.map Prod.fst).Nodup → n ∈ S.map Prod.fst →
        (objValsJoin (classifySchedulesByStatus R S)).countP (fun e => e.name == n) = 1)
    ∧ (∀ (R : Obj JsRegExp) (S : Obj String) (k : String) (r : JsRegExp)
        (n a : String), (objKeys R).Nodup → (k, r) ∈ R →
        (S.map Prod.fst).Nodup → (n, a) ∈ S →
        ∃ bucket, objGet (classifySchedulesByStatusSimple R S) k = some bucket ∧
          bucket.countP (fun e => e.name == n) = if r.test a then 1 else 0) := by
  have hcount : ∀ (R : Obj JsRegExp) (S : Obj ScheduleVal) (n : String),
      (objValsJoin (classifySchedulesByStatus R S)).countP (fun e => e.name == n)
        = S.countP fun p => p.1 == n := by
    intro R S n
    rw [(classify_join_perm R S).countP_eq]
    rw [List.countP_map]
    rfl
  refine ⟨hcount, ?_, ?_⟩
  · intro R S n hnd hn
    rw [hcount R S n]
    obtain ⟨p, hp, hfst⟩ := List.mem_map.mp hn
    have hmem : (n, p.2) ∈ S := by
      obtain ⟨n', v'⟩ := p
      cases hfst
      exact hp
    have := countP_key_unique (fun _ => true) S n p.2 hnd hmem
    simpa using this
  · intro R S k r n a hndR hr hndS hmem
    refine ⟨_, objGet_classifySimple_of_mem R S hndR hr, ?_⟩
    rw [countP_sortByName]
    rw [countP_filterMap_if (fun q => r.test q.2)
      (fun q => (⟨q.1, q.2⟩ : SimpleEntry)) (fun e => e.name == n) S]
    have hcomm : (fun (q : String × String) =>
        r.test q.2 && ((⟨q.1, q.2⟩ : SimpleEntry).name == n))
        = fun q => (q.1 == n) && r.test q.2 := by
      funext q
      exact Bool.and_comm _ _
    rw [hcomm]
    exact countP_key_unique (fun b => r.test b) S n a hndS hmem

/-- Witness for C1: a concrete one-member roster; the role-aware classifier
counts the member once across all buckets, and the simple classifier counts
them once in the matching category. -/
theorem classifier_membership_c1_witness :
    (([("Alice", (⟨"Resident", some "CCU - A"⟩ : ScheduleVal))].map Prod.fst).Nodup
      ∧ (objValsJoin (classifySchedulesByStatus
          [("off", (⟨["CCU - A"], true⟩ : JsRegExp))]
          [("Alice", ⟨"Resident", some "CCU - A"⟩)])).countP
            (fun e => e.name == "Alice") = 1)
    ∧ ∃ bucket,
        objGet (classifySchedulesByStatusSimple
          [("off", (⟨["CCU - A"], true⟩ : JsRegExp))] [("Alice", "CCU - A")]) "off"
          = some bucket
        ∧ bucket.countP (fun e => e.name == "Alice")
            = if (⟨["CCU - A"], true⟩ : JsRegExp).test "CCU - A" then 1 else 0 :=
  ⟨⟨by decide,
    classifier_membership_c1.2.1 [("off", ⟨["CCU - A"], true⟩)]
      [("Alice", ⟨"Resident", some "CCU - A"⟩)] "Alice" (by decide) (by decide)⟩,
   classifier_membership_c1.2.2 [("off", ⟨["CCU - A"], true⟩)]
     [("Alice", "CCU - A")] "off" ⟨["CCU - A"], true⟩ "Alice" "CCU - A"
     (by decide) (by decide) (by decide) (by decide)⟩

/-- **C2.** In the role-aware classifier the inner loop returns the key of
the category iterated last (rule-map insertion order) among those whose
pattern matches the assignment, and the default `likelyNotOff` key when no
pattern matches; every roster entry is then placed in exactly that
bucket. -/
theorem lastMatch_wins_c2 :
    (∀ (R : Obj JsRegExp) (a : Option String),
      classifyKey R a
        = match (R.filter fun p => p.2.test (jsStringArg a)).getLast? with
          | some p => p.1
          | none => CLASSIFICATION_KEY_LIKELY_NOT_OFF)
    ∧ (∀ (R : Obj JsRegExp) (S : Obj ScheduleVal) (n : String) (v : ScheduleVal),
        (n, v) ∈ S →
        ∃ bucket,
          objGet (classifySchedulesByStatus R S) (classifyKey R v.assignment)
            = some bucket
          ∧ (⟨n, v.role, v.assignment⟩ : ClassifiedEntry) ∈ bucket) := by
  constructor
  · intro R a
    exact foldl_lastMatch (jsStringArg a) R CLASSIFICATION_KEY_LIKELY_NOT_OFF
  · intro R S n v hmem
    refine ⟨sortByName ClassifiedEntry.name
      (bucketSelect R S (classifyKey R v.assignment)), ?_, ?_⟩
    · rw [objGet_classifySchedulesByStatus,
        if_pos (classifyKey_mem R v.assignment)]
    · exact (mem_sortByName _ _ _).mpr (mem_bucketSelect_self R S hmem)

/-- Witness for C2: with the off pattern and the maybe-off pattern both
matching the assignment `CCU - A`, the member is found in the bucket that
`classifyKey` picks (the maybe-off category, iterated last). -/
theorem lastMatch_wins_c2_witness :
    (("Alice", (⟨"Resident", some "CCU - A"⟩ : ScheduleVal))
        ∈ [("Alice", (⟨"Resident", some "CCU - A"⟩ : ScheduleVal))])
    ∧ ∃ bucket,
        objGet (classifySchedulesByStatus
            [("off", (⟨["CCU"], true⟩ : JsRegExp)),
             ("maybeOff", (⟨["CCU - A"], true⟩ : JsRegExp))]
            [("Alice", ⟨"Resident", some "CCU - A"⟩)])
          (classifyKey
            [("off", (⟨["CCU"], true⟩ : JsRegExp)),
             ("maybeOff", (⟨["CCU - A"], true⟩ : JsRegExp))] (some "CCU - A"))
          = some bucket
        ∧ (⟨"Alice", "Resident", some "CCU - A"⟩ : ClassifiedEntry) ∈ bucket :=
  ⟨by decide,
   lastMatch_wins_c2.2
     [("off", ⟨["CCU"], true⟩), ("maybeOff", ⟨["CCU - A"], true⟩)]
     [("Alice", ⟨"Resident", some "CCU - A"⟩)] "Alice"
     ⟨"Resident", some "CCU - A"⟩ (by decide)⟩

/-- **C3.** On a template row whose day-five cell holds the OFF sentinel,
the role-aware `helpers/db.js` variant (the inlined, corrected scan) routes
the row to the OFF service-to-position map, as the claim states.  The
`templates.js` variant never classifies anything: its ProjectionExpression
references the undeclared attribute name `#5`, so its scan request fails
DynamoDB name validation and the call throws a ValidationException on every
invocation, reaching neither the OFF nor the MAYBE-OFF map. -/
theorem off_row_routing_c3 :
    getOffAndMaybeOffRotationsForRole
        [⟨"CCU", "A", "Resident", "Any", [("5", "OFF")]⟩] "Resident" true 5
      = { off := [("CCU", "A")], maybeOff := [] }
    ∧ dynamoNamesValid templatesScanDeclaredNames
        (templatesScanFilterNames ++ templatesProjectionNames (toString (5 : Int)))
      = false
    ∧ getOffAndMaybeOffRotationsForRoleTemplates
        [⟨"CCU", "A", "Resident", "Any", [("5", "OFF")]⟩] "Resident" true 5
      = .error (.dbValidation
          "Invalid ProjectionExpression: An expression attribute name used in the document path is not defined") := by
  refine ⟨rfl, by decide, rfl⟩

theorem objGet_objMergeSpread {β : Type} (a b : Obj β)
    (hnd : (objKeys b).Nodup) (k : String) :
    objGet (objMergeSpread a b) k
      = match objGet b k with
        | some v => some v
        | none => objGet a k := by
  cases hb : objGet b k with
  | some v =>
    exact objGet_foldl_set_of_mem Prod.fst Prod.snd b a (k, v) hnd (objGet_mem b hb)
  | none =>
    have hnm : k ∉ List.map Prod.fst b := by
      intro hm
      have := isSome_objGet_of_mem b k hm
      rw [hb] at this
      simp at this
    exact objGet_foldl_set_not_mem Prod.fst Prod.snd b a k hnm

/-- **C4.** The Bayview fetch result is merged only for the resident role:
for the resident role the output off map is the JS spread of the primary
off map with the Bayview map (the Bayview value wins on any shared key)
while the maybe-off map is exactly the primary one; for any other role
(in particular the intern role) the output is the primary fetch result
unchanged and the Bayview source is never consulted. -/
theorem bayview_merge_c4 :
    (∀ (templates : List TemplateRow) (bvTable : List BayviewRow) (dateStr : String)
        (isA : Bool) (dayNumber : Int) (bv : Obj String),
      getBayviewOffRotations bvTable dateStr = .ok bv →
      (objKeys bv).Nodup →
      getRotationsByScheduledForRoleAndBlockInfo templates bvTable dateStr
          ROLE_RESIDENT isA dayNumber
        = .ok
            { off := objMergeSpread
                (getOffAndMaybeOffRotationsForRole templates ROLE_RESIDENT isA
                  dayNumber).off bv
              maybeOff := (getOffAndMaybeOffRotationsForRole templates ROLE_RESIDENT
                isA dayNumber).maybeOff }
        ∧ ∀ (k v : String), objGet bv k = some v →
            objGet (objMergeSpread
              (getOffAndMaybeOffRotationsForRole templates ROLE_RESIDENT isA
                dayNumber).off bv) k = some v)
    ∧ (∀ (templates : List TemplateRow) (bvTable : List BayviewRow)
        (dateStr role : String) (isA : Bool) (dayNumber : Int),
        role ≠ ROLE_RESIDENT →
        getRotationsByScheduledForRoleAndBlockInfo templates bvTable dateStr role
            isA dayNumber
          = .ok (getOffAndMaybeOffRotationsForRole templates role isA dayNumber)) := by
  constructor
  · intro templates bvTable dateStr isA dayNumber bv hbv hnd
    constructor
    · simp only [getRotationsByScheduledForRoleAndBlockInfo, hbv, beq_self_eq_true,
        if_true]
    · intro k v hkv
      rw [objGet_objMergeSpread _ bv hnd k, hkv]
  · intro templates bvTable dateStr role isA dayNumber hrole
    have : (role == ROLE_RESIDENT) = false := beq_eq_false_iff_ne.mpr hrole
    simp only [getRotationsByScheduledForRoleAndBlockInfo, this, Bool.false_eq_true,
      if_false]

/-- Witness for C4: with one Bayview off fact (`Bayview ICU`, column `2`)
and a primary off fact for the same synthetic service name, the resident
merge keeps the Bayview value; for the intern role the same inputs pass
through unchanged. -/
theorem bayview_merge_c4_witness :
    (getBayviewOffRotations [[("date", "2023-08-01"), ("2", "OFF")]] "2023-08-01"
        = .ok [("Bayview ICU", "2")]
      ∧ getRotationsByScheduledForRoleAndBlockInfo
          [⟨"Bayview ICU", "1", "Resident", "Any", [("5", "OFF")]⟩]
          [[("date", "2023-08-01"), ("2", "OFF")]] "2023-08-01" ROLE_RESIDENT true 5
        = .ok
            { off := objMergeSpread
                (getOffAndMaybeOffRotationsForRole
                  [⟨"Bayview ICU", "1", "Resident", "Any", [("5", "OFF")]⟩]
                  ROLE_RESIDENT true 5).off [("Bayview ICU", "2")]
              maybeOff := (getOffAndMaybeOffRotationsForRole
                [⟨"Bayview ICU", "1", "Resident", "Any", [("5", "OFF")]⟩]
                ROLE_RESIDENT true 5).maybeOff })
    ∧ getRotationsByScheduledForRoleAndBlockInfo
        [⟨"Bayview ICU", "1", "Resident", "Any", [("5", "OFF")]⟩]
        [[("date", "2023-08-01"), ("2", "OFF")]] "2023-08-01" ROLE_INTERN true 5
      = .ok (getOffAndMaybeOffRotationsForRole
          [⟨"Bayview ICU", "1", "Resident", "Any", [("5", "OFF")]⟩]
          ROLE_INTERN true 5) :=
  ⟨⟨by rfl,
    (bayview_merge_c4.1 [⟨"Bayview ICU", "1", "Resident", "Any", [("5", "OFF")]⟩]
      [[("date", "2023-08-01"), ("2", "OFF")]] "2023-08-01" true 5
      [("Bayview ICU", "2")] (by rfl) (by decide)).1⟩,
   bayview_merge_c4.2 [⟨"Bayview ICU", "1", "Resident", "Any", [("5", "OFF")]⟩]
     [[("date", "2023-08-01"), ("2", "OFF")]] "2023-08-01" ROLE_INTERN true 5
     (by decide)⟩

theorem bayview_foldl_char :
    ∀ (cols : Obj String) (m0 : Obj String),
      cols.foldl (fun m p =>
          if p.2 == SCHEDULED_OFF then objSet m SERVICE_BAYVIEW_ICU p.1 else m) m0
        = match (cols.filter fun p => p.2 == SCHEDULED_OFF).getLast? with
          | some p => objSet m0 SERVICE_BAYVIEW_ICU p.1
          | none => m0 := by
  intro cols
  induction cols with
  | nil => intro m0; rfl
  | cons c rest ih =>
    intro m0
    simp only [List.foldl_cons, List.filter_cons]
    by_cases h : (c.2 == SCHEDULED_OFF) = true
    · rw [if_pos h, if_pos h, ih]
      cases hrf : (rest.filter fun p => p.2 == SCHEDULED_OFF) with
      | nil => simp [hrf]
      | cons x xs =>
        rw [List.getLast?_cons_cons]
        cases hg : (x :: xs).getLast? with
        | none => exact absurd hg (by simp [List.getLast?_eq_none_iff])
        | some q => exact objSet_objSet_same m0 _ _ _
    · rw [if_neg h, if_neg h, ih]

/-- **C5.** When the Bayview query finds a row for the date, every column
whose value is the OFF sentinel writes a fact under the single synthetic
service name `Bayview ICU`, so later facts overwrite earlier ones: the
returned map is empty when no column qualifies and otherwise holds exactly
one entry whose position is the last qualifying column in iteration
order; in all cases it has at most one entry. -/
theorem bayview_collapse_c5 :
    ∀ (table : List BayviewRow) (dateStr : String) (row : BayviewRow)
      (rest : List BayviewRow),
      bayviewQuery table dateStr = row :: rest →
      ∃ m, getBayviewOffRotations table dateStr = .ok m
        ∧ m = (match (row.filter fun p => p.2 == SCHEDULED_OFF).getLast? with
               | some p => [(SERVICE_BAYVIEW_ICU, p.1)]
               | none => [])
        ∧ m.length ≤ 1 := by
  intro table dateStr row rest h
  cases hlast : (row.filter fun p => p.2 == SCHEDULED_OFF).getLast? with
  | some p =>
    refine ⟨[(SERVICE_BAYVIEW_ICU, p.1)], ?_, rfl, by simp⟩
    unfold getBayviewOffRotations
    rw [h]
    show Except.ok (row.foldl (fun m p =>
      if p.2 == SCHEDULED_OFF then objSet m SERVICE_BAYVIEW_ICU p.1 else m) []) = _
    rw [bayview_foldl_char row [], hlast]
    rfl
  | none =>
    refine ⟨[], ?_, rfl, by simp⟩
    unfold getBayviewOffRotations
    rw [h]
    show Except.ok (row.foldl (fun m p =>
      if p.2 == SCHEDULED_OFF then objSet m SERVICE_BAYVIEW_ICU p.1 else m) []) = _
    rw [bayview_foldl_char row [], hlast]

/-- Witness for C5: a Bayview row with two qualifying columns (`1` and `3`)
collapses to the single entry for the last one, column `3`. -/
theorem bayview_collapse_c5_witness :
    bayviewQuery [[("date", "2023-08-01"), ("1", "OFF"), ("2", "ON"), ("3", "OFF")]]
        "2023-08-01"
      = [[("date", "2023-08-01"), ("1", "OFF"), ("2", "ON"), ("3", "OFF")]]
    ∧ ∃ m, getBayviewOffRotations
          [[("date", "2023-08-01"), ("1", "OFF"), ("2", "ON"), ("3", "OFF")]]
          "2023-08-01"
        = .ok m
      ∧ m = (match (([("date", "2023-08-01"), ("1", "OFF"), ("2", "ON"),
              ("3", "OFF")] : Obj String).filter
                fun p => p.2 == SCHEDULED_OFF).getLast? with
             | some p => [(SERVICE_BAYVIEW_ICU, p.1)]
             | none => [])
      ∧ m.length ≤ 1 :=
  ⟨by decide,
   bayview_collapse_c5 [[("date", "2023-08-01"), ("1", "OFF"), ("2", "ON"),
     ("3", "OFF")]] "2023-08-01"
     [("date", "2023-08-01"), ("1", "OFF"), ("2", "ON"), ("3", "OFF")] []
     (by decide)⟩

/-- **C6.** A secondary-site lookup that finds zero rows for the date is
fatal, in both variants.  Role-aware: for the resident role, zero Bayview
rows make the whole per-role classification step fail with the Bayview 404
`StatusError`, whatever the primary templates, the roster and the rule
store contain — no partial classification is returned.  Simple variant:
zero Weinberg rows make `getRotationsOffForBlockInfo` fail with the
Weinberg 404 `StatusError`, whatever the primary templates table contains,
so no merged off map is returned either. -/
theorem bayview_notFound_fatal_c6 :
    (∀ (schedTable : List SchedRow) (templates : List TemplateRow)
      (bvTable : List BayviewRow) (regexTable : List ServiceRegexRow)
      (dateStr : String) (blockInfo : BlockInfo),
      bayviewQuery bvTable dateStr = [] →
      classifySchedulesForRoleAndBlockInfo schedTable templates bvTable regexTable
          dateStr ROLE_RESIDENT blockInfo
        = .error ⟨404, "Could not find any Bayview schedules for given date"⟩)
    ∧ (∀ (templTable : List TemplateRow) (wbgTable : List WeinbergRow)
        (positionOff dateStr : String) (isA : Bool) (dayNumber : Int),
        weinbergQuery wbgTable dateStr = [] →
        getRotationsOffForBlockInfo templTable wbgTable positionOff dateStr isA
            dayNumber
          = .error ⟨404, "Could not find any Weinberg schedules for given date"⟩) := by
  constructor
  · intro schedTable templates bvTable regexTable dateStr blockInfo h
    have hbv : getBayviewOffRotations bvTable dateStr
        = .error ⟨404, "Could not find any Bayview schedules for given date"⟩ := by
      unfold getBayviewOffRotations
      rw [h]
    have hrot : getRotationsByScheduledForRoleAndBlockInfo templates bvTable dateStr
        ROLE_RESIDENT (jsTruthy (getIsAFromBlockInfo blockInfo))
        (getDayNumberFromBlockInfo blockInfo)
        = .error ⟨404, "Could not find any Bayview schedules for given date"⟩ := by
      simp only [getRotationsByScheduledForRoleAndBlockInfo, hbv, beq_self_eq_true,
        if_true]
    unfold classifySchedulesForRoleAndBlockInfo
    rw [hrot]
  · intro templTable wbgTable positionOff dateStr isA dayNumber h
    have hwbg : getWeinbergRotationsOff wbgTable positionOff dateStr
        = .error ⟨404, "Could not find any Weinberg schedules for given date"⟩ := by
      unfold getWeinbergRotationsOff
      rw [h]
    unfold getRotationsOffForBlockInfo
    rw [hwbg]

/-- Witness for C6: with an empty Bayview table the whole per-role step for
the resident role is the Bayview 404 error, although the primary tables
hold a matching template row and a roster member; likewise, with an empty
Weinberg table the simple-variant fetch is the Weinberg 404 error although
the primary templates table holds a matching row. -/
theorem bayview_notFound_fatal_c6_witness :
    (bayviewQuery [] "2023-08-01" = []
      ∧ classifySchedulesForRoleAndBlockInfo
          [⟨"Alice", "Resident", [("9A", "CCU - A")]⟩]
          [⟨"CCU", "A", "Resident", "Any", [("5", "OFF")]⟩]
          [] [⟨"CCU", "CCU :position"⟩] "2023-08-01" ROLE_RESIDENT
          ⟨some "9A", some true, 5⟩
        = .error ⟨404, "Could not find any Bayview schedules for given date"⟩)
    ∧ weinbergQuery [] "2023-08-01" = []
    ∧ getRotationsOffForBlockInfo
        [⟨"CCU", "A", "Resident", "Any", [("5", "OFF")]⟩] [] "OFF" "2023-08-01"
        true 5
      = .error ⟨404, "Could not find any Weinberg schedules for given date"⟩ :=
  ⟨⟨by decide,
    bayview_notFound_fatal_c6.1 [⟨"Alice", "Resident", [("9A", "CCU - A")]⟩]
      [⟨"CCU", "A", "Resident", "Any", [("5", "OFF")]⟩] []
      [⟨"CCU", "CCU :position"⟩] "2023-08-01" ⟨some "9A", some true, 5⟩
      (by decide)⟩,
   by decide,
   bayview_notFound_fatal_c6.2 [⟨"CCU", "A", "Resident", "Any", [("5", "OFF")]⟩]
     [] "OFF" "2023-08-01" true 5 (by decide)⟩

/-- **C7.** The day-number is the day difference between the date and the
block start plus one, in both variants: `buildBlockInfo` always computes
`diff + 1`, and `getBlockInfoForDate` computes `diff + 1` from the first
matching block of the scan; when the date equals the block start date the
day-number is 1. -/
theorem dayNumber_diff_plus_one_c7 :
    (∀ (thisDay : Int) (blockName : Option String) (startDate : Int),
      (buildBlockInfo thisDay blockName startDate).dayNumber
          = dayjsDiffDay thisDay startDate + 1
        ∧ (thisDay = startDate →
            (buildBlockInfo thisDay blockName startDate).dayNumber = 1))
    ∧ (∀ (table : List BlockRow) (thisDay : Int) (b : BlockRow)
        (rest : List BlockRow) (name : String),
        table.filter (blockMatchesDate thisDay) = b :: rest →
        b.block = some name →
        getBlockInfoForDate table thisDay
            = .ok ⟨some name, listOccursIn "A".data name.data,
                dayjsDiffDay thisDay b.start_date + 1⟩
          ∧ (thisDay = b.start_date →
              getBlockInfoForDate table thisDay
                = .ok ⟨some name, listOccursIn "A".data name.data, 1⟩)) := by
  constructor
  · intro thisDay blockName startDate
    refine ⟨rfl, fun h => ?_⟩
    subst h
    simp [buildBlockInfo, dayjsDiffDay]
  · intro table thisDay b rest name hfilter hname
    have hmain : getBlockInfoForDate table thisDay
        = .ok ⟨some name, listOccursIn "A".data name.data,
            dayjsDiffDay thisDay b.start_date + 1⟩ := by
      simp only [getBlockInfoForDate, hfilter, hname, jsStringIncludes]
    refine ⟨hmain, fun h => ?_⟩
    rw [hmain]
    subst h
    simp [dayjsDiffDay]

/-- Witness for C7: a concrete Blocks table whose single block `9A` starts
at day 100; on day 104 the day-number is 5, and on day 100 it is 1. -/
theorem dayNumber_diff_plus_one_c7_witness :
    ((buildBlockInfo 104 (some "9A") 100).dayNumber = dayjsDiffDay 104 100 + 1
      ∧ (buildBlockInfo 100 (some "9A") 100).dayNumber = 1)
    ∧ ([⟨some "9A", 100, 113⟩].filter (blockMatchesDate 104)
          = [(⟨some "9A", 100, 113⟩ : BlockRow)]
        ∧ getBlockInfoForDate [⟨some "9A", 100, 113⟩] 104
          = .ok ⟨some "9A", listOccursIn "A".data "9A".data,
              dayjsDiffDay 104 100 + 1⟩)
    ∧ getBlockInfoForDate [⟨some "9A", 100, 113⟩] 100
      = .ok ⟨some "9A", listOccursIn "A".data "9A".data, 1⟩ :=
  ⟨⟨(dayNumber_diff_plus_one_c7.1 104 (some "9A") 100).1,
    (dayNumber_diff_plus_one_c7.1 100 (some "9A") 100).2 rfl⟩,
   ⟨by decide,
    (dayNumber_diff_plus_one_c7.2 [⟨some "9A", 100, 113⟩] 104 ⟨some "9A", 100, 113⟩
      [] "9A" (by decide) rfl).1⟩,
   (dayNumber_diff_plus_one_c7.2 [⟨some "9A", 100, 113⟩] 100 ⟨some "9A", 100, 113⟩
     [] "9A" (by decide) rfl).2 rfl⟩

/-- **C8 counterexample.** In the simple variant, a matched block record
whose `block` attribute is absent makes `getBlockInfoForDate` throw a
`TypeError` (reading `.includes` of `undefined`), so the isA flag does not
evaluate to false there: the claim fails on `helpers/db.js`, which reads
`blocks[0].block.includes("A")` without optional chaining. -/
theorem absent_blockName_c8_counterexample :
    getBlockInfoForDate [⟨none, 0, 10⟩] 0
      = .error (.typeError "Cannot read properties of undefined") := by
  rfl

/-- **C8 (amended).** In the role-aware variant, `buildBlockInfo` with a
null or absent `blockName` yields `isA = undefined` without throwing — a
falsy value, so the flag evaluates to false in every boolean context; the
simple variant `getBlockInfoForDate` lacks the optional chaining and
throws instead. -/
theorem absent_blockName_safe_c8 :
    ∀ (thisDay startDate : Int),
      (buildBlockInfo thisDay none startDate).isA = none
      ∧ jsTruthy (buildBlockInfo thisDay none startDate).isA = false := by
  intro thisDay startDate
  exact ⟨rfl, rfl⟩

theorem objGet_getRegexForOffRotations_maybeOff (table : List ServiceRegexRow)
    (maybeOffServiceKey : String) (offRotations : Obj String) :
    objGet (getRegexForOffRotations table maybeOffServiceKey offRotations) "maybeOff"
      = some (jsNewRegExpOpt
          (buildOffExpsAndMaybeExp table maybeOffServiceKey offRotations).2) := by
  simp only [getRegexForOffRotations]
  by_cases h : (buildOffExpsAndMaybeExp table maybeOffServiceKey offRotations).1.length > 0
  · simp [h, objSet, objGet]
  · simp [h, objGet]

theorem objGet_getRegexForOffRotations_off (table : List ServiceRegexRow)
    (maybeOffServiceKey : String) (offRotations : Obj String) :
    objGet (getRegexForOffRotations table maybeOffServiceKey offRotations) "off"
        = none
      ↔ (buildOffExpsAndMaybeExp table maybeOffServiceKey offRotations).1 = [] := by
  simp only [getRegexForOffRotations]
  by_cases h : (buildOffExpsAndMaybeExp table maybeOffServiceKey offRotations).1.length > 0
  · have : (buildOffExpsAndMaybeExp table maybeOffServiceKey offRotations).1 ≠ [] := by
      intro he
      rw [he] at h
      simp at h
    simp [h, objSet, objGet, this]
  · have : (buildOffExpsAndMaybeExp table maybeOffServiceKey offRotations).1 = [] :=
      List.eq_nil_of_length_eq_zero (by omega)
    simp [h, objGet, this]

theorem objKeys_getRegexForOffRotations_nodup (table : List ServiceRegexRow)
    (maybeOffServiceKey : String) (offRotations : Obj String) :
    (objKeys (getRegexForOffRotations table maybeOffServiceKey offRotations)).Nodup := by
  simp only [getRegexForOffRotations]
  by_cases h : (buildOffExpsAndMaybeExp table maybeOffServiceKey offRotations).1.length > 0
  · simp [h, objSet, objKeys]
  · simp [h, objKeys]

/-- **C9.** The rule builder never returns a null pattern entry: the
compiled pattern of `tryBuildRegexForServices` is null exactly for an empty
expression list; in the role-aware builder each category key is present in
the output map exactly when its expression array compiled to a non-null
pattern (an empty category is dropped by the null filter); in the simple
builder the `maybeOff` entry is always present (compiled from the stored
maybe-off expression, or from `undefined` when none was found) and the
`off` entry is present exactly when at least one off expression exists. -/
theorem no_null_rule_entries_c9 :
    (∀ expressions : List String,
      tryBuildRegexForServices expressions = none ↔ expressions = [])
    ∧ (∀ (table : List ServiceRegexRow) (rot : RotationsByScheduled),
        objGet (getRegexForRotationsByScheduled table rot) CLASSIFICATION_KEY_OFF
            = tryBuildRegexForServices (buildExpArrays table rot).1
          ∧ objGet (getRegexForRotationsByScheduled table rot)
              CLASSIFICATION_KEY_MAYBE_OFF
            = tryBuildRegexForServices (buildExpArrays table rot).2)
    ∧ (∀ (table : List ServiceRegexRow) (maybeOffServiceKey : String)
        (offRotations : Obj String),
        objGet (getRegexForOffRotations table maybeOffServiceKey offRotations)
            "maybeOff"
          = some (jsNewRegExpOpt
              (buildOffExpsAndMaybeExp table maybeOffServiceKey offRotations).2)
        ∧ (objGet (getRegexForOffRotations table maybeOffServiceKey offRotations)
              "off" = none
            ↔ (buildOffExpsAndMaybeExp table maybeOffServiceKey offRotations).1
                = [])) := by
  refine ⟨?_, ?_, ?_⟩
  · intro expressions
    cases expressions <;> simp [tryBuildRegexForServices]
  · intro table rot
    simp only [getRegexForRotationsByScheduled]
    cases h1 : tryBuildRegexForServices (buildExpArrays table rot).1 <;>
      cases h2 : tryBuildRegexForServices (buildExpArrays table rot).2 <;>
        simp [h1, h2, objGet, CLASSIFICATION_KEY_OFF, CLASSIFICATION_KEY_MAYBE_OFF]
  · intro table maybeOffServiceKey offRotations
    exact ⟨objGet_getRegexForOffRotations_maybeOff table maybeOffServiceKey
        offRotations,
      objGet_getRegexForOffRotations_off table maybeOffServiceKey offRotations⟩

theorem buildOffExps_maybe_none (table : List ServiceRegexRow)
    (maybeOffServiceKey : String) (offRotations : Obj String)
    (h : ∀ r ∈ table, r.service ≠ maybeOffServiceKey) :
    (buildOffExpsAndMaybeExp table maybeOffServiceKey offRotations).2 = none := by
  have hgen : ∀ (rows : List ServiceRegexRow),
      (∀ r ∈ rows, (r.service == maybeOffServiceKey) = false) →
      ∀ acc : List String × Option String,
        (rows.foldl (fun acc r =>
          if r.service == maybeOffServiceKey then (acc.1, some r.expression)
          else (acc.1 ++ [r.expression.replace EXP_PLACEHOLDER_POSITION
            (jsStringArg (objGet offRotations r.service))], acc.2)) acc).2
          = acc.2 := by
    intro rows
    induction rows with
    | nil => intro _ acc; rfl
    | cons r rest ih =>
      intro hr acc
      simp only [List.foldl_cons, hr r (List.mem_cons_self _ _), Bool.false_eq_true,
        if_false]
      exact ih (fun q hq => hr q (List.mem_cons_of_mem _ hq)) _
  simp only [buildOffExpsAndMaybeExp]
  exact hgen _
    (fun r hr => beq_eq_false_iff_ne.mpr (h r (List.mem_of_mem_filter hr))) _

theorem listOccursIn_nil (l : List Char) : listOccursIn [] l = true := by
  cases l <;> simp [listOccursIn, List.isPrefixOf]

theorem jsNewRegExpOpt_none_test (s : String) :
    (jsNewRegExpOpt none).test s = true := by
  have h0 : lowerChars ("" : String).data = [] := by decide
  simp [jsNewRegExpOpt, JsRegExp.test, h0, listOccursIn_nil]

/-- **C10.** In the simple variant, when the rule store has no row for the
generic maybe-off service key, the returned map still holds a `maybeOff`
entry compiled from the `undefined` expression — the empty pattern, which
matches every string — so the simple classifier puts every roster member
into the `maybeOff` bucket. -/
theorem undefined_maybeOff_matches_all_c10 :
    ∀ (table : List ServiceRegexRow) (maybeOffServiceKey : String)
      (offRotations : Obj String),
      (∀ r ∈ table, r.service ≠ maybeOffServiceKey) →
      objGet (getRegexForOffRotations table maybeOffServiceKey offRotations)
          "maybeOff" = some (jsNewRegExpOpt none)
      ∧ (∀ s : String, (jsNewRegExpOpt none).test s = true)
      ∧ (∀ (schedules : Obj String) (n a : String), (n, a) ∈ schedules →
          ∃ bucket,
            objGet (classifySchedulesByStatusSimple
                (getRegexForOffRotations table maybeOffServiceKey offRotations)
                schedules) "maybeOff"
              = some bucket
            ∧ (⟨n, a⟩ : SimpleEntry) ∈ bucket) := by
  intro table maybeOffServiceKey offRotations h
  have hmb : objGet (getRegexForOffRotations table maybeOffServiceKey offRotations)
      "maybeOff" = some (jsNewRegExpOpt none) := by
    rw [objGet_getRegexForOffRotations_maybeOff,
      buildOffExps_maybe_none table maybeOffServiceKey offRotations h]
  refine ⟨hmb, jsNewRegExpOpt_none_test, ?_⟩
  intro schedules n a hmem
  refine ⟨sortByName SimpleEntry.name (schedules.filterMap fun q =>
      if (jsNewRegExpOpt none).test q.2 then some ⟨q.1, q.2⟩ else none), ?_, ?_⟩
  · exact objGet_classifySimple_of_mem _ schedules
      (objKeys_getRegexForOffRotations_nodup table maybeOffServiceKey offRotations)
      (objGet_mem _ hmb)
  · refine (mem_sortByName _ _ _).mpr ?_
    exact List.mem_filterMap.mpr ⟨(n, a), hmem, by simp [jsNewRegExpOpt_none_test]⟩

/-- Witness for C10: the rule store holds only a `CCU` row, so there is no
row for the maybe-off key `MaybeServices`; the member `Bob`, whose
assignment matches no stored pattern, still lands in the `maybeOff`
bucket. -/
theorem undefined_maybeOff_matches_all_c10_witness :
    (∀ r ∈ [(⟨"CCU", "CCU :position"⟩ : ServiceRegexRow)],
        r.service ≠ "MaybeServices")
    ∧ objGet (getRegexForOffRotations [⟨"CCU", "CCU :position"⟩] "MaybeServices"
        [("CCU", "A")]) "maybeOff" = some (jsNewRegExpOpt none)
    ∧ ∃ bucket,
        objGet (classifySchedulesByStatusSimple
            (getRegexForOffRotations [⟨"CCU", "CCU :position"⟩] "MaybeServices"
              [("CCU", "A")])
            [("Alice", "CCU - A"), ("Bob", "Janeway - B")]) "maybeOff"
          = some bucket
        ∧ (⟨"Bob", "Janeway - B"⟩ : SimpleEntry) ∈ bucket :=
  ⟨by decide,
   (undefined_maybeOff_matches_all_c10 [⟨"CCU", "CCU :position"⟩] "MaybeServices"
     [("CCU", "A")] (by decide)).1,
   (undefined_maybeOff_matches_all_c10 [⟨"CCU", "CCU :position"⟩] "MaybeServices"
     [("CCU", "A")] (by decide)).2.2
     [("Alice", "CCU - A"), ("Bob", "Janeway - B")] "Bob" "Janeway - B"
     (by decide)⟩

end OffDays
